import Mathlib

/-!
Verification of the stellara-server core against its specification.

The repository manages long-running child processes (Minecraft servers) in
pseudo-terminals.  Each process owns a bounded rolling log buffer filled by a
capture thread (src/minecraft/server_process.py), a manager keeps metadata and
live instances (src/minecraft/manager.py), and a WebSocket layer fans log
deltas out to subscribers (src/server.py).

Each Python function relevant to a claim is shallowly embedded below as an
executable Lean definition that follows the control flow of the source line by
line.  Effects (spawns, directory creation, kill signals, persistence writes,
WebSocket deliveries) are recorded in explicit event lists so that theorems can
speak about what the code did.
-/

namespace Stellara

/-! ## Rolling log buffer

    src/minecraft/server_process.py line 34:
    the log buffer is collections.deque(maxlen=5000).  Appending to a full
    deque discards the leftmost (oldest) element. -/

def LOG_CAP : Nat := 5000

/-- Append to a deque with a maximum length: when the buffer already holds
at least cap lines the oldest line is dropped before the new one is added.
This is the semantics of collections.deque(maxlen=cap).append. -/
def dequeAppend (cap : Nat) (buf : List String) (s : String) : List String :=
  if cap ≤ buf.length then buf.drop 1 ++ [s] else buf ++ [s]

/-- Appending a sequence of lines to the log buffer, one call of
log_buffer.append per produced line, starting from the empty buffer. -/
def logAppendAll (xs : List String) : List String :=
  List.foldl (dequeAppend LOG_CAP) [] xs

/-- Embedding of MinecraftServerProcess.get_log_lines: under the log lock it
returns a snapshot copy of the deque, i.e. the buffer contents in order. -/
def get_log_lines (buf : List String) : List String := buf

lemma dequeAppend_full {cap : Nat} {buf : List String} (s : String)
    (h : cap ≤ buf.length) : dequeAppend cap buf s = buf.drop 1 ++ [s] := by
  unfold dequeAppend
  rw [if_pos h]

lemma dequeAppend_not_full {cap : Nat} {buf : List String} (s : String)
    (h : ¬ cap ≤ buf.length) : dequeAppend cap buf s = buf ++ [s] := by
  unfold dequeAppend
  rw [if_neg h]

lemma dequeAppend_length_mono (cap : Nat) (buf : List String) (s : String) :
    buf.length ≤ (dequeAppend cap buf s).length := by
  unfold dequeAppend
  split
  · simp only [List.length_append, List.length_drop, List.length_singleton]
    omega
  · simp only [List.length_append, List.length_singleton]
    omega

lemma foldl_dequeAppend_drop (cap : Nat) (hcap : 0 < cap) (xs : List String) :
    List.foldl (dequeAppend cap) [] xs = xs.drop (xs.length - cap) := by
  induction xs using List.reverseRecOn with
  | nil => simp
  | append_singleton ys y ih =>
      rw [List.foldl_append, ih, List.foldl_cons, List.foldl_nil]
      simp only [List.length_append, List.length_singleton]
      by_cases hlen : cap ≤ ys.length
      · rw [dequeAppend_full y (by rw [List.length_drop]; omega)]
        rw [List.drop_drop]
        rw [List.drop_append_of_le_length (by omega)]
        have harith : ys.length - cap + 1 = ys.length + 1 - cap := by omega
        rw [harith]
      · rw [dequeAppend_not_full y (by rw [List.length_drop]; omega)]
        have h0 : ys.length - cap = 0 := by omega
        have h1 : ys.length + 1 - cap = 0 := by omega
        rw [h0, h1, List.drop_zero, List.drop_zero]

/-- C2: for every sequence of lines appended by the capture loop, the log
buffer (and hence get_log_lines) holds exactly the most recent 5000 lines in
append order: the result is the suffix of the append sequence past the first
length - 5000 entries, and never exceeds 5000 lines. -/
theorem get_log_lines_ring (xs : List String) :
    get_log_lines (logAppendAll xs) = xs.drop (xs.length - LOG_CAP) ∧
    (logAppendAll xs).length ≤ LOG_CAP := by
  have h := foldl_dequeAppend_drop LOG_CAP (by norm_num [LOG_CAP]) xs
  constructor
  · exact h
  · unfold logAppendAll
    rw [h, List.length_drop]
    omega

/-! ## MinecraftServerProcess.write

    src/minecraft/server_process.py lines 84 to 101.  The writeToProcess
    model returns the string that actually reaches the process input stream
    (none when nothing was written).  The liveness query result and whether
    the underlying pty write raises are inputs of the model. -/

/-- Embedding of MinecraftServerProcess.write: return early when the process
is not running; otherwise append a newline when the input does not already
end with one and forward it; a raising pty write is swallowed (nothing
reaches the stream, no exception escapes). -/
def writeToProcess (alive : Bool) (pipeBroken : Bool) (input : String) :
    Option String :=
  if alive = false then none
  else
    if pipeBroken then none
    else if input.endsWith "\n" then some input else some (input ++ "\n")

/-- C8: write is a no-op when the process is not alive; when alive and the
pipe works, the forwarded string is the input with a line terminator appended
exactly when the input does not already end with one; a broken pipe is
swallowed, the function still returns normally with nothing forwarded. -/
theorem write_spec (alive broken : Bool) (input : String) :
    (alive = false → writeToProcess alive broken input = none) ∧
    writeToProcess true false input =
      some (if input.endsWith "\n" then input else input ++ "\n") ∧
    writeToProcess true true input = none := by
  refine ⟨fun h => ?_, ?_, ?_⟩
  · simp [writeToProcess, h]
  · by_cases h : input.endsWith "\n" <;> simp [writeToProcess, h]
  · simp [writeToProcess]

/-- Closed instance of write_spec discharging its hypothesis at a concrete
dead process. -/
theorem write_spec_witness : writeToProcess false false "say hi" = none :=
  (write_spec false false "say hi").1 rfl

/-! ## MinecraftServerProcess.stop

    src/minecraft/server_process.py lines 130 to 162.  Real time is
    discretised by the 0.5 second sleep of the wait loop: poll index j means
    j sleeps after the stop command was written, and the 30 second timeout
    allows at most 60 sleeps.  The autonomous behaviour of the child is the
    parameter dies: some d means the child is dead from poll index d on,
    none means it ignores the stop command forever. -/

inductive StopAction where
  | writeStop
  | sleepPoll
  | kill
deriving DecidableEq, Repr

/-- Liveness of the child j sleep intervals after the stop command: with
dies = some d the child is alive exactly while j < d, with dies = none it is
always alive. -/
def isAliveAt (dies : Option Nat) (j : Nat) : Bool :=
  match dies with
  | none => true
  | some d => decide (j < d)

/-- Number of polls allowed by the grace period: 30 seconds at one poll per
0.5 second sleep. -/
def GRACE_POLLS : Nat := 60

/-- Number of sleepPoll actions in a stop action trace. -/
def sleepCount : List StopAction → Nat
  | [] => 0
  | StopAction.sleepPoll :: rest => sleepCount rest + 1
  | _ :: rest => sleepCount rest

/-- Embedding of the wait-then-kill tail of stop: while the child is alive
and the timeout has not elapsed, sleep 0.5 s; after the loop, kill exactly
when the child is still alive. -/
def stopLoop (dies : Option Nat) : Nat → Nat → List StopAction
  | j, 0 => if isAliveAt dies j then [StopAction.kill] else []
  | j, fuel + 1 =>
      if isAliveAt dies j then StopAction.sleepPoll :: stopLoop dies (j + 1) fuel
      else if isAliveAt dies j then [StopAction.kill] else []

/-- Embedding of MinecraftServerProcess.stop as the list of actions it
performs: return early when not alive; when the initial write (or anything
before the wait loop) raises, fall through to the except branch that kills;
otherwise write the stop line and run the wait-then-kill loop. -/
def stopProcess (aliveStart : Bool) (writeRaises : Bool) (dies : Option Nat) :
    List StopAction :=
  if aliveStart = false then []
  else if writeRaises then [StopAction.kill]
  else StopAction.writeStop :: stopLoop dies 0 GRACE_POLLS

lemma stopLoop_kill_iff (dies : Option Nat) (j fuel : Nat) :
    StopAction.kill ∈ stopLoop dies j fuel ↔ isAliveAt dies (j + fuel) = true := by
  induction fuel generalizing j with
  | zero =>
      unfold stopLoop
      split
      · simp_all
      · simp_all
  | succ n ih =>
      unfold stopLoop
      split
      · rw [List.mem_cons, show j + (n + 1) = j + 1 + n from by omega, ← ih (j + 1)]
        simp
      · rename_i hdead
        simp only [Bool.not_eq_true] at hdead
        simp only [hdead, Bool.false_eq_true, if_false, List.not_mem_nil, false_iff]
        cases dies with
        | none => simp [isAliveAt] at hdead
        | some d =>
            simp only [isAliveAt, decide_eq_false_iff_not] at hdead
            simp only [isAliveAt, decide_eq_true_eq]
            omega

lemma stopLoop_sleep_le (dies : Option Nat) (j fuel : Nat) :
    sleepCount (stopLoop dies j fuel) ≤ fuel := by
  induction fuel generalizing j with
  | zero =>
      unfold stopLoop
      split
      · simp [sleepCount]
      · simp [sleepCount]
  | succ n ih =>
      unfold stopLoop
      split
      · simp only [sleepCount]
        have := ih (j + 1)
        omega
      · simp [sleepCount]

/-- C5: stop is a no-op when the process is not alive (hence in particular a
second stop after a successful one does nothing); a failure before the wait
loop falls through to a forced kill; otherwise the first action is writing
the stop line, at most 60 polls of 0.5 s each (the 30 s grace period) are
made, and the forced kill happens exactly when the child is still alive once
the grace period has elapsed. -/
theorem stop_spec (writeRaises : Bool) (dies : Option Nat) :
    stopProcess false writeRaises dies = [] ∧
    (writeRaises = true → stopProcess true writeRaises dies = [StopAction.kill]) ∧
    (writeRaises = false →
      (stopProcess true writeRaises dies).head? = some StopAction.writeStop ∧
      sleepCount (stopProcess true writeRaises dies) ≤ GRACE_POLLS ∧
      (StopAction.kill ∈ stopProcess true writeRaises dies ↔
        isAliveAt dies GRACE_POLLS = true)) := by
  refine ⟨rfl, fun h => by simp [stopProcess, h], fun h => ?_⟩
  subst h
  have hred : stopProcess true false dies =
      StopAction.writeStop :: stopLoop dies 0 GRACE_POLLS := rfl
  refine ⟨by rw [hred]; rfl, ?_, ?_⟩
  · rw [hred]
    simp only [sleepCount]
    exact stopLoop_sleep_le dies 0 GRACE_POLLS
  · rw [hred, List.mem_cons]
    have hk := stopLoop_kill_iff dies 0 GRACE_POLLS
    rw [Nat.zero_add] at hk
    rw [← hk]
    simp

/-- Closed instance of stop_spec: for a child that dies after 3 polls the
stop sequence performs no kill, and a stop on a dead process does nothing. -/
theorem stop_spec_witness :
    stopProcess false false (some 3) = [] ∧
    ((stopProcess true false (some 3)).head? = some StopAction.writeStop ∧
      sleepCount (stopProcess true false (some 3)) ≤ GRACE_POLLS ∧
      (StopAction.kill ∈ stopProcess true false (some 3) ↔
        isAliveAt (some 3) GRACE_POLLS = true)) :=
  ⟨(stop_spec false (some 3)).1, (stop_spec false (some 3)).2.2 rfl⟩

/-! ## Capture loop

    src/minecraft/server_process.py lines 48 to 81, method read_stdout.
    Strings are represented as lists of characters so that the line splitting
    loop can be reasoned about by structural induction.  A chunk is either the
    data returned by one pty read or a read error (the except branch); an
    empty data chunk makes the loop break just like an error does. -/

inductive Chunk where
  | data (s : List Char)
  | readError
deriving DecidableEq, Repr

/-- Split a character list at the first newline: some (before, after) when a
newline occurs, none otherwise.  This is str.split with maxsplit 1 restricted
to the case the separator occurs. -/
def splitOnNL : List Char → Option (List Char × List Char)
  | [] => none
  | c :: cs =>
      if c = '\n' then some ([], cs)
      else
        match splitOnNL cs with
        | none => none
        | some (l, r) => some (c :: l, r)

lemma splitOnNL_rest_lt :
    ∀ (cs l r : List Char), splitOnNL cs = some (l, r) → r.length < cs.length := by
  intro cs
  induction cs with
  | nil => intro l r h; cases h
  | cons c cs ih =>
      intro l r h
      by_cases hc : c = '\n'
      · rw [splitOnNL, if_pos hc] at h
        cases h
        simp
      · rw [splitOnNL, if_neg hc] at h
        cases hsplit : splitOnNL cs with
        | none => rw [hsplit] at h; cases h
        | some p =>
            obtain ⟨l0, r0⟩ := p
            rw [hsplit] at h
            simp only [Option.some.injEq, Prod.mk.injEq] at h
            obtain ⟨h1, h2⟩ := h
            subst h2
            have := ih l0 r0 hsplit
            simp only [List.length_cons]
            omega

/-- Embedding of the inner while loop of read_stdout: while the accumulator
contains a newline, split off the first complete line and append it to the
log buffer with its terminator restored. -/
def extractLines (buffer : List (List Char)) (pl : List Char) :
    List (List Char) × List Char :=
  match h : splitOnNL pl with
  | none => (buffer, pl)
  | some (line, rest) => extractLines (buffer ++ [line ++ ['\n']]) rest
termination_by pl.length
decreasing_by exact splitOnNL_rest_lt pl line rest h

/-- State of the capture thread: the shared log buffer, the private partial
line accumulator, the running flag, and an instrumentation counter of how
many final-flush appends the finally block has performed. -/
structure CapSt where
  log_buffer : List (List Char)
  partialLine : List Char
  running : Bool
  finalFlushes : Nat
deriving DecidableEq, Repr

def initCap : CapSt := ⟨[], [], true, 0⟩

/-- Whether a chunk ends the stream: a read error or an empty read. -/
def chunkEnds : Chunk → Bool
  | Chunk.readError => true
  | Chunk.data s => s.isEmpty

/-- Embedding of the read loop of read_stdout over a finite schedule of pty
reads: a read error or an empty read breaks out of the loop immediately and
the remaining chunks are never consumed; a data chunk is appended to the
accumulator and all complete lines are moved to the log buffer. -/
def readLoop (st : CapSt) : List Chunk → CapSt
  | [] => st
  | ch :: rest =>
      match ch with
      | Chunk.readError => st
      | Chunk.data s =>
          if s.isEmpty then st
          else
            readLoop
              { st with
                log_buffer := (extractLines st.log_buffer (st.partialLine ++ s)).1,
                partialLine := (extractLines st.log_buffer (st.partialLine ++ s)).2 }
              rest

/-- Embedding of the finally block of read_stdout: flush a non-empty partial
line into the log buffer as one final entry, then clear the running flag. -/
def finallyFlush (st : CapSt) : CapSt :=
  if st.partialLine.isEmpty then { st with running := false }
  else
    { st with
      log_buffer := st.log_buffer ++ [st.partialLine],
      partialLine := [],
      running := false,
      finalFlushes := st.finalFlushes + 1 }

/-- One full lifetime of the capture thread on a schedule of reads. -/
def captureRun (cs : List Chunk) : CapSt := finallyFlush (readLoop initCap cs)

lemma readLoop_flushes (cs : List Chunk) :
    ∀ st : CapSt, (readLoop st cs).finalFlushes = st.finalFlushes := by
  induction cs with
  | nil => intro st; rfl
  | cons ch rest ih =>
      intro st
      cases ch with
      | readError => rfl
      | data s =>
          by_cases hs : s.isEmpty
          · rw [readLoop, if_pos hs]
          · rw [readLoop, if_neg hs, ih]

lemma readLoop_takeWhile (cs : List Chunk) :
    ∀ st : CapSt,
      readLoop st (cs.takeWhile (fun c => ! chunkEnds c)) = readLoop st cs := by
  induction cs with
  | nil => intro st; rfl
  | cons ch rest ih =>
      intro st
      cases ch with
      | readError => rfl
      | data s =>
          by_cases hs : s.isEmpty
          · simp [List.takeWhile_cons, chunkEnds, hs, readLoop]
          · rw [List.takeWhile_cons, if_pos (by simp [chunkEnds, hs])]
            simp only [readLoop]
            simp only [if_neg hs]
            exact ih _

/-- C9: on every read schedule, a read error or empty read ends the stream
(the chunks after the first such event are never consumed); at stream end the
finally block flushes the remaining partial line into the history as exactly
one final entry exactly when it is non-empty (never more than once), and the
loop is marked stopped. -/
theorem capture_stream_end (cs : List Chunk) :
    (captureRun cs).running = false ∧
    (captureRun cs).finalFlushes ≤ 1 ∧
    ((captureRun cs).finalFlushes = 1 ↔ (readLoop initCap cs).partialLine ≠ []) ∧
    (captureRun cs).log_buffer =
      (readLoop initCap cs).log_buffer ++
        (if (readLoop initCap cs).partialLine = [] then []
         else [(readLoop initCap cs).partialLine]) ∧
    readLoop initCap (cs.takeWhile (fun c => ! chunkEnds c)) = readLoop initCap cs := by
  have hf : (readLoop initCap cs).finalFlushes = 0 := readLoop_flushes cs initCap
  by_cases hp : (readLoop initCap cs).partialLine = []
  · have hpe : (readLoop initCap cs).partialLine.isEmpty = true := by
      rw [hp]; rfl
    refine ⟨?_, ?_, ?_, ?_, readLoop_takeWhile cs initCap⟩
    · rw [captureRun, finallyFlush, if_pos hpe]
    · rw [captureRun, finallyFlush, if_pos hpe]
      simp only
      omega
    · rw [captureRun, finallyFlush, if_pos hpe]
      simp only [hf, hp]
      simp
    · rw [captureRun, finallyFlush, if_pos hpe, if_pos hp]
      simp
  · have hpe : ¬ (readLoop initCap cs).partialLine.isEmpty = true := by
      simpa [List.isEmpty_iff] using hp
    refine ⟨?_, ?_, ?_, ?_, readLoop_takeWhile cs initCap⟩
    · rw [captureRun, finallyFlush, if_neg hpe]
    · rw [captureRun, finallyFlush, if_neg hpe]
      simp only [hf]
      omega
    · rw [captureRun, finallyFlush, if_neg hpe]
      simp only [hf]
      simp [hp]
    · rw [captureRun, finallyFlush, if_neg hpe, if_neg hp]

/-! ## ServerManager

    src/minecraft/manager.py.  Python dicts are embedded as insertion-ordered
    association lists; dictInsert replaces in place or appends, matching dict
    assignment.  Filesystem and process effects (mkdir, spawn, stop, the
    save_to_disk persistence write) are recorded as events in the state. -/

structure SrvMeta where
  server_dir : String
  java_cmd : List String
  autostart : Bool
deriving DecidableEq, Repr

structure SrvInst where
  server_id : String
  server_dir : String
  java_cmd : List String
  alive : Bool
deriving DecidableEq, Repr

inductive MgrErr where
  | unknownIdentity
  | duplicateIdentity
deriving DecidableEq, Repr

/-- Association list lookup with string keys, the read side of a Python
dict. -/
def dictGet {α : Type} (k : String) : List (String × α) → Option α
  | [] => none
  | (k0, v) :: rest => if k0 = k then some v else dictGet k rest

/-- Association list update, the write side of a Python dict: replace the
value in place when the key exists, append otherwise. -/
def dictInsert {α : Type} (k : String) (v : α) : List (String × α) → List (String × α)
  | [] => [(k, v)]
  | (k0, v0) :: rest =>
      if k0 = k then (k, v) :: rest else (k0, v0) :: dictInsert k v rest

/-- Association list removal, dict.pop(k, None). -/
def dictRemove {α : Type} (k : String) (l : List (String × α)) : List (String × α) :=
  l.filter (fun p => p.1 ≠ k)

/-- State of a ServerManager: the metadata dict, the dict of live server
instances, and event logs of spawns, directory creations, graceful stops and
persistence writes. -/
structure MgrSt where
  metadata : List (String × SrvMeta)
  servers : List (String × SrvInst)
  spawns : List (String × String × List String)
  mkdirs : List String
  stops : List String
  saves : Nat
deriving DecidableEq, Repr

/-- Spawn tail shared by start_server: create the server directory if
missing, construct a MinecraftServerProcess (recorded as a spawn event) and
register it in the servers dict. -/
def spawnAndRegister (st : MgrSt) (server_id : String) (meta : SrvMeta) : MgrSt :=
  { st with
    mkdirs := st.mkdirs ++ [meta.server_dir],
    spawns := st.spawns ++ [(server_id, meta.server_dir, meta.java_cmd)],
    servers :=
      dictInsert server_id
        ⟨server_id, meta.server_dir, meta.java_cmd, true⟩ st.servers }

/-- Embedding of ServerManager.start_server: unknown identity raises; an
already registered and still running instance makes the call return with no
effect; otherwise the stored metadata drives a fresh spawn. -/
def start_server (st : MgrSt) (server_id : String) : Except MgrErr Unit × MgrSt :=
  match dictGet server_id st.metadata with
  | none => (Except.error MgrErr.unknownIdentity, st)
  | some meta =>
      match dictGet server_id st.servers with
      | some inst =>
          if inst.alive then (Except.ok (), st)
          else (Except.ok (), spawnAndRegister st server_id meta)
      | none => (Except.ok (), spawnAndRegister st server_id meta)

/-- Embedding of ServerManager.create_server: a duplicate identity raises
before any effect; otherwise the directory is created, a process is spawned
and registered, the metadata record is stored and the whole set is persisted
(one save_to_disk call). -/
def create_server (st : MgrSt) (server_id server_dir : String)
    (java_cmd : List String) (autostart : Bool) : Except MgrErr Unit × MgrSt :=
  if (dictGet server_id st.metadata).isSome then
    (Except.error MgrErr.duplicateIdentity, st)
  else
    let st1 :=
      spawnAndRegister st server_id ⟨server_dir, java_cmd, autostart⟩
    let st2 :=
      { st1 with
        metadata :=
          dictInsert server_id ⟨server_dir, java_cmd, autostart⟩ st1.metadata,
        saves := st1.saves + 1 }
    (Except.ok (), st2)

/-- Embedding of ServerManager.get_server: a plain dict lookup that does not
consult liveness. -/
def get_server (st : MgrSt) (server_id : String) : Option SrvInst :=
  dictGet server_id st.servers

/-- Embedding of ServerManager.stop_server: only when an instance is
registered and its is_running query answers true is stop invoked and the
instance removed from the servers dict; otherwise nothing at all happens, a
dead registered instance stays registered. -/
def stop_server (st : MgrSt) (server_id : String) : MgrSt :=
  match dictGet server_id st.servers with
  | none => st
  | some inst =>
      if inst.alive then
        { st with
          stops := st.stops ++ [server_id],
          servers := dictRemove server_id st.servers }
      else st

/-- C6: start_server raises the unknown-identity error exactly when no
metadata record exists; with a registered instance whose liveness query
answers true the call is a no-op returning the state unchanged (no spawn, no
mkdir); otherwise the stored record drives the spawn: the working directory
is created and the spawn uses the directory and command of the stored
metadata. -/
theorem start_server_spec (st : MgrSt) (server_id : String) :
    ((start_server st server_id).1 = Except.error MgrErr.unknownIdentity ↔
      dictGet server_id st.metadata = none) ∧
    (∀ inst, dictGet server_id st.metadata ≠ none →
      dictGet server_id st.servers = some inst → inst.alive = true →
      start_server st server_id = (Except.ok (), st)) ∧
    (∀ meta, dictGet server_id st.metadata = some meta →
      dictGet server_id st.servers = none ∨
        (∃ inst, dictGet server_id st.servers = some inst ∧ inst.alive = false) →
      start_server st server_id = (Except.ok (), spawnAndRegister st server_id meta)) := by
  refine ⟨?_, ?_, ?_⟩
  · cases hm : dictGet server_id st.metadata with
    | none => simp [start_server, hm]
    | some meta =>
        cases hs : dictGet server_id st.servers with
        | none => simp [start_server, hm, hs]
        | some inst =>
            by_cases ha : inst.alive <;> simp [start_server, hm, hs, ha]
  · intro inst hknown hs ha
    cases hm : dictGet server_id st.metadata with
    | none => exact absurd hm hknown
    | some meta => simp [start_server, hm, hs, ha]
  · intro meta hm hdead
    rcases hdead with hnone | ⟨inst, hs, hdead⟩
    · simp [start_server, hm, hnone]
    · simp [start_server, hm, hs, hdead]

/-- Metadata record used by the concrete manager states below. -/
def meta0 : SrvMeta := ⟨"d", ["java", "-jar", "server.jar"], true⟩

def instLive : SrvInst := ⟨"alpha", "d", ["java", "-jar", "server.jar"], true⟩

def instDead : SrvInst := ⟨"alpha", "d", ["java", "-jar", "server.jar"], false⟩

/-- Manager knowing identity alpha with no live instance. -/
def mgr0 : MgrSt := ⟨[("alpha", meta0)], [], [], [], [], 0⟩

/-- Manager with a live registered instance for alpha. -/
def mgrLive : MgrSt := ⟨[("alpha", meta0)], [("alpha", instLive)], [], [], [], 0⟩

/-- Manager whose registered instance for alpha has already exited. -/
def mgrDead : MgrSt := ⟨[("alpha", meta0)], [("alpha", instDead)], [], [], [], 0⟩

/-- Closed instance of start_server_spec: starting a live identity is a
no-op, starting an unknown identity errors, and starting a known identity
whose instance is dead respawns from the stored record. -/
theorem start_server_spec_witness :
    start_server mgrLive "alpha" = (Except.ok (), mgrLive) ∧
    (start_server mgr0 "beta").1 = Except.error MgrErr.unknownIdentity ∧
    start_server mgrDead "alpha" =
      (Except.ok (), spawnAndRegister mgrDead "alpha" meta0) := by
  refine ⟨?_, ?_, ?_⟩
  · exact (start_server_spec mgrLive "alpha").2.1 instLive (by decide) (by decide) rfl
  · exact (start_server_spec mgr0 "beta").1.mpr (by decide)
  · exact (start_server_spec mgrDead "alpha").2.2 meta0 (by decide)
      (Or.inr ⟨instDead, by decide, rfl⟩)

/-- C7: create_server called with an identity that already has a metadata
record fails with the duplicate-identity error and returns the state
unchanged: no directory is created, no process spawned, the metadata dict is
not mutated and save_to_disk is not called. -/
theorem create_server_duplicate (st : MgrSt) (server_id server_dir : String)
    (java_cmd : List String) (autostart : Bool)
    (h : (dictGet server_id st.metadata).isSome = true) :
    create_server st server_id server_dir java_cmd autostart =
      (Except.error MgrErr.duplicateIdentity, st) := by
  simp [create_server, h]

/-- Closed instance of create_server_duplicate at a concrete manager that
already knows identity alpha. -/
theorem create_server_duplicate_witness :
    create_server mgr0 "alpha" "e" ["cmd"] false =
      (Except.error MgrErr.duplicateIdentity, mgr0) :=
  create_server_duplicate mgr0 "alpha" "e" ["cmd"] false (by decide)

/-- C10: an instance whose process has exited on its own is still returned
by get_server, and stop_server on it changes nothing: the instance is only
removed from the servers dict by a stop call that found it alive, so
membership in the servers dict does not imply liveness. -/
theorem dead_instance_retained (st : MgrSt) (server_id : String) (inst : SrvInst)
    (h1 : dictGet server_id st.servers = some inst) (h2 : inst.alive = false) :
    get_server st server_id = some inst ∧ stop_server st server_id = st := by
  constructor
  · exact h1
  · simp [stop_server, h1, h2]

/-- Closed instance of dead_instance_retained at a concrete manager holding
a dead instance for alpha. -/
theorem dead_instance_retained_witness :
    get_server mgrDead "alpha" = some instDead ∧
    stop_server mgrDead "alpha" = mgrDead :=
  dead_instance_retained mgrDead "alpha" instDead (by decide) (by decide)

/-! ## Console attach and broadcast interleaving

    src/server.py lines 235 to 306 (broadcast_logs) and 309 to 386
    (minecraft_console), for one subscriber of one running server.

    The asyncio event loop interleaves the attach handler and the broadcaster
    task only at await points, and the capture thread can append lines at any
    moment.  Accordingly the system is modelled as a step function over atomic
    actions, one action per code region between awaits:

    newLine      capture thread appends one line under the log lock
    attachSnap   line 328: log_lines snapshot and initial_line_count
    attachReg    lines 332 to 341: register the socket with cursor 0 under the
                 websocket lock and create the broadcaster task if absent
    attachSend   lines 345 to 347: the initial full-history send completes
                 (skipped entirely when the snapshot was empty)
    attachCursor lines 349 to 351: set the cursor to initial_line_count under
                 the websocket lock, if the socket is still registered
    bcastSnap    line 250: broadcaster snapshot of get_log_lines
    bcastGate    lines 254 to 265: if the snapshot is longer than
                 last_line_count, set last_line_count to it and copy the
                 subscriber dict (socket, cursor) under the websocket lock
    bcastSend    lines 272 to 275: send the lines past the copied cursor when
                 there are any
    bcastCursor  lines 277 to 279: set the cursor to the snapshot length under
                 the websocket lock, if the socket is still registered

    A guard that does not hold makes the action a no-op, so every action list
    is a valid schedule. -/

structure AttachSt where
  pc : Nat
  snap : List String
deriving DecidableEq, Repr

structure BcastSt where
  started : Bool
  phase : Nat
  lastCount : Nat
  lines : List String
  copiedCursor : Nat
deriving DecidableEq, Repr

structure ConsoleSt where
  hist : List String
  registered : Bool
  cursor : Nat
  delivered : List (List String)
  att : AttachSt
  bc : BcastSt
deriving DecidableEq, Repr

inductive Act where
  | newLine (s : String)
  | attachSnap
  | attachReg
  | attachSend
  | attachCursor
  | bcastSnap
  | bcastGate
  | bcastSend
  | bcastCursor
deriving DecidableEq, Repr

def initConsole : ConsoleSt :=
  ⟨[], false, 0, [], ⟨0, []⟩, ⟨false, 0, 0, [], 0⟩⟩

/-- One atomic step of the interleaved attach handler, broadcaster task and
capture thread, as described in the section comment above. -/
def stepC (st : ConsoleSt) : Act → ConsoleSt
  | Act.newLine s => { st with hist := dequeAppend LOG_CAP st.hist s }
  | Act.attachSnap =>
      if st.att.pc = 0 then { st with att := ⟨1, st.hist⟩ } else st
  | Act.attachReg =>
      if st.att.pc = 1 then
        { st with
          registered := true,
          cursor := 0,
          bc := { st.bc with started := true },
          att := { st.att with pc := 2 } }
      else st
  | Act.attachSend =>
      if st.att.pc = 2 then
        if st.att.snap.isEmpty then { st with att := { st.att with pc := 4 } }
        else
          { st with
            delivered := st.delivered ++ [st.att.snap],
            att := { st.att with pc := 3 } }
      else st
  | Act.attachCursor =>
      if st.att.pc = 3 then
        { st with
          cursor := if st.registered then st.att.snap.length else st.cursor,
          att := { st.att with pc := 4 } }
      else st
  | Act.bcastSnap =>
      if st.bc.started = true ∧ st.bc.phase = 0 then
        { st with bc := { st.bc with lines := st.hist, phase := 1 } }
      else st
  | Act.bcastGate =>
      if st.bc.phase = 1 then
        if st.bc.lastCount < st.bc.lines.length ∧ st.registered = true then
          { st with
            bc :=
              { st.bc with
                lastCount := st.bc.lines.length,
                copiedCursor := st.cursor,
                phase := 2 } }
        else { st with bc := { st.bc with phase := 0 } }
      else st
  | Act.bcastSend =>
      if st.bc.phase = 2 then
        if st.bc.copiedCursor < st.bc.lines.length then
          { st with
            delivered := st.delivered ++ [st.bc.lines.drop st.bc.copiedCursor],
            bc := { st.bc with phase := 3 } }
        else { st with bc := { st.bc with phase := 0 } }
      else st
  | Act.bcastCursor =>
      if st.bc.phase = 3 then
        { st with
          cursor := if st.registered then st.bc.lines.length else st.cursor,
          bc := { st.bc with phase := 0 } }
      else st

/-- Run a schedule of atomic actions from the initial console state. -/
def runC (acts : List Act) : ConsoleSt := List.foldl stepC initConsole acts

/-- Realisable schedule refuting exactly-once delivery on attach: one line of
history exists, the subscriber attaches, the initial send completes, and
before the attach handler reacquires the websocket lock to update the cursor
the broadcaster task runs one full poll, sees the cursor still at 0 and sends
the same line again. -/
def dupSched : List Act :=
  [Act.newLine "a\n", Act.attachSnap, Act.attachReg, Act.attachSend,
   Act.bcastSnap, Act.bcastGate, Act.bcastSend]

/-- C1 failing run: with one history line and no further appends (N = 1 and
M = 0) the subscriber receives two sends, each containing that same line, so
it receives 2 lines in total instead of exactly N + M = 1; the broadcaster
resent a line the client had already received. -/
theorem attach_double_send :
    (runC dupSched).hist = ["a\n"] ∧
    (runC dupSched).delivered = [["a\n"], ["a\n"]] := by
  constructor <;> rfl

/-- Realisable schedule on which the cursor decreases: after the attach
snapshot (one line) a second line arrives, the broadcaster delivers both
lines and advances the cursor to 2 while the initial send of the attach
handler is still in flight; when that send completes the handler overwrites
the cursor with the older snapshot length 1. -/
def cursorSched : List Act :=
  [Act.newLine "a\n", Act.attachSnap, Act.attachReg, Act.newLine "b\n",
   Act.bcastSnap, Act.bcastGate, Act.bcastSend, Act.bcastCursor,
   Act.attachSend]

/-- C3 counterexample run: the cursor stands at 2 and the next step of the
attach handler lowers it to 1, so the cursor is not monotonically
non-decreasing across the interleaving. -/
theorem cursor_decreases :
    (runC cursorSched).cursor = 2 ∧
    (stepC (runC cursorSched) Act.attachCursor).cursor = 1 := by
  constructor <;> rfl

/-- Invariant of the console system: the cursor and every recorded snapshot
length are bounded by the current history length; before registration the
cursor is 0 and no broadcaster exists; while a poll iteration is in flight
the cursor and the attach snapshot are bounded by the poll snapshot. -/
def InvC (st : ConsoleSt) : Prop :=
  st.cursor ≤ st.hist.length ∧
  st.att.snap.length ≤ st.hist.length ∧
  st.bc.lines.length ≤ st.hist.length ∧
  (st.att.pc ≤ 1 →
    st.cursor = 0 ∧ st.bc.started = false ∧ st.registered = false) ∧
  (1 ≤ st.bc.phase →
    st.cursor ≤ st.bc.lines.length ∧ st.att.snap.length ≤ st.bc.lines.length) ∧
  (st.bc.started = false → st.bc.phase = 0)

lemma InvC_init : InvC initConsole := by
  refine ⟨?_, ?_, ?_, ?_, ?_, ?_⟩ <;> simp [initConsole]

lemma InvC_step (st : ConsoleSt) (a : Act) (h : InvC st) : InvC (stepC st a) := by
  obtain ⟨h1, h2, h3, h4, h5, h6⟩ := h
  cases a with
  | newLine s =>
      have hlen := dequeAppend_length_mono LOG_CAP st.hist s
      unfold InvC
      dsimp only [stepC]
      refine ⟨by omega, by omega, by omega, h4, h5, h6⟩
  | attachSnap =>
      dsimp only [stepC]
      split
      · rename_i hpc
        unfold InvC
        dsimp only
        refine ⟨h1, le_refl _, h3, fun _ => h4 (by omega), ?_, h6⟩
        intro hph
        have h4o := h4 (by omega)
        have hph0 := h6 h4o.2.1
        omega
      · exact ⟨h1, h2, h3, h4, h5, h6⟩
  | attachReg =>
      dsimp only [stepC]
      split
      · rename_i hpc
        unfold InvC
        dsimp only
        refine ⟨by omega, h2, h3, by intro hc; omega, ?_, by intro hc; cases hc⟩
        intro hph
        have h4o := h4 (by omega)
        have hph0 := h6 h4o.2.1
        omega
      · exact ⟨h1, h2, h3, h4, h5, h6⟩
  | attachSend =>
      dsimp only [stepC]
      split
      · split
        · unfold InvC
          dsimp only
          exact ⟨h1, h2, h3, by intro hc; omega, h5, h6⟩
        · unfold InvC
          dsimp only
          exact ⟨h1, h2, h3, by intro hc; omega, h5, h6⟩
      · exact ⟨h1, h2, h3, h4, h5, h6⟩
  | attachCursor =>
      dsimp only [stepC]
      split
      · rename_i hpc
        unfold InvC
        dsimp only
        refine ⟨?_, h2, h3, by intro hc; omega, ?_, h6⟩
        · split
          · exact h2
          · exact h1
        · intro hph
          have h5o := h5 hph
          refine ⟨?_, h5o.2⟩
          split
          · exact h5o.2
          · exact h5o.1
      · exact ⟨h1, h2, h3, h4, h5, h6⟩
  | bcastSnap =>
      dsimp only [stepC]
      split
      · rename_i hg
        unfold InvC
        dsimp only
        refine ⟨h1, h2, le_refl _, ?_, fun _ => ⟨h1, h2⟩, ?_⟩
        · intro hpc
          have h4o := h4 hpc
          simp [h4o.2.1] at hg
        · intro hc
          simp [hc] at hg
      · exact ⟨h1, h2, h3, h4, h5, h6⟩
  | bcastGate =>
      dsimp only [stepC]
      split
      · rename_i hphase
        split
        · unfold InvC
          dsimp only
          refine ⟨h1, h2, h3, h4, fun _ => h5 (by omega), ?_⟩
          intro hc
          have := h6 hc
          omega
        · unfold InvC
          dsimp only
          exact ⟨h1, h2, h3, h4, by intro hph; omega, fun _ => rfl⟩
      · exact ⟨h1, h2, h3, h4, h5, h6⟩
  | bcastSend =>
      dsimp only [stepC]
      split
      · rename_i hphase
        split
        · unfold InvC
          dsimp only
          refine ⟨h1, h2, h3, h4, fun _ => h5 (by omega), ?_⟩
          intro hc
          have := h6 hc
          omega
        · unfold InvC
          dsimp only
          exact ⟨h1, h2, h3, h4, by intro hph; omega, fun _ => rfl⟩
      · exact ⟨h1, h2, h3, h4, h5, h6⟩
  | bcastCursor =>
      dsimp only [stepC]
      split
      · rename_i hphase
        unfold InvC
        dsimp only
        refine ⟨?_, h2, h3, ?_, by intro hph; omega, fun _ => rfl⟩
        · split
          · exact h3
          · exact h1
        · intro hpc
          have h4o := h4 hpc
          have := h6 h4o.2.1
          omega
      · exact ⟨h1, h2, h3, h4, h5, h6⟩

lemma InvC_run (acts : List Act) : InvC (runC acts) := by
  suffices hgen : ∀ (acts : List Act) (st : ConsoleSt), InvC st →
      InvC (List.foldl stepC st acts) by
    exact hgen acts initConsole InvC_init
  intro acts
  induction acts with
  | nil => intro st h; exact h
  | cons a rest ih =>
      intro st h
      exact ih (stepC st a) (InvC_step st a h)

lemma cursor_mono_step (st : ConsoleSt) (a : Act) (hinv : InvC st)
    (hne : a ≠ Act.attachCursor) : st.cursor ≤ (stepC st a).cursor := by
  obtain ⟨h1, h2, h3, h4, h5, h6⟩ := hinv
  cases a with
  | newLine s => exact le_refl _
  | attachSnap =>
      dsimp only [stepC]
      split
      · exact le_refl _
      · exact le_refl _
  | attachReg =>
      dsimp only [stepC]
      split
      · rename_i hpc
        have h4o := h4 (by omega)
        dsimp only
        omega
      · exact le_refl _
  | attachSend =>
      dsimp only [stepC]
      split
      · split
        · exact le_refl _
        · exact le_refl _
      · exact le_refl _
  | attachCursor => exact absurd rfl hne
  | bcastSnap =>
      dsimp only [stepC]
      split
      · exact le_refl _
      · exact le_refl _
  | bcastGate =>
      dsimp only [stepC]
      split
      · split
        · exact le_refl _
        · exact le_refl _
      · exact le_refl _
  | bcastSend =>
      dsimp only [stepC]
      split
      · split
        · exact le_refl _
        · exact le_refl _
      · exact le_refl _
  | bcastCursor =>
      dsimp only [stepC]
      split
      · rename_i hphase
        have h5o := h5 (by omega)
        dsimp only
        split
        · exact h5o.1
        · exact le_refl _
      · exact le_refl _

theorem cursor_bounded_and_mono (acts : List Act) :
    (runC acts).cursor ≤ (runC acts).hist.length ∧
    ∀ a : Act, a ≠ Act.attachCursor →
      (runC acts).cursor ≤ (stepC (runC acts) a).cursor := by
  have hinv := InvC_run acts
  exact ⟨hinv.1, fun a hne => cursor_mono_step (runC acts) a hinv hne⟩

/-- Closed instance of cursor_bounded_and_mono on the duplicate-send
schedule and a fresh line append, discharging the hypothesis that the step
is not the attach cursor update. -/
theorem cursor_bounded_and_mono_witness :
    (runC dupSched).cursor ≤ (runC dupSched).hist.length ∧
    (runC dupSched).cursor ≤ (stepC (runC dupSched) (Act.newLine "c\n")).cursor :=
  ⟨(cursor_bounded_and_mono dupSched).1,
    (cursor_bounded_and_mono dupSched).2 (Act.newLine "c\n") (by decide)⟩

/-! ## Broadcaster lifecycle

    src/server.py: the registry _server_websockets (subscriber dict per
    server_id) and _server_broadcasters (task per server_id) for one fixed
    server_id.  Events:

    attach            lines 332 to 341: register the client under the lock
                      and create the broadcaster task if the id is absent
                      from _server_broadcasters
    handlerDisconnect lines 368 to 383: the finally block of the console
                      handler; it only cleans up when the id is still present
                      in _server_websockets, and cancelling the task makes
                      the task run its CancelledError branch which pops both
                      registries
    bcastDropFailed   lines 285 to 294: the broadcaster removes a client
                      whose delivery failed; when the subscriber dict becomes
                      empty it deletes the _server_websockets entry and
                      breaks out of its loop, leaving _server_broadcasters
                      untouched
    bcastServerDead   lines 244 to 246 and 299 to 303: the broadcaster
                      notices the server process is gone and its
                      CancelledError branch pops both registries. -/

structure LifeSt where
  subs : List Nat
  wsEntry : Bool
  bcastReg : Bool
  bcastAlive : Bool
deriving DecidableEq, Repr

inductive LifeEv where
  | attach (c : Nat)
  | handlerDisconnect (c : Nat)
  | bcastDropFailed (c : Nat)
  | bcastServerDead
deriving DecidableEq, Repr

def initLife : LifeSt := ⟨[], false, false, false⟩

/-- One lifecycle event on the registries of a single server identity,
following the code paths listed in the section comment. -/
def lifeStep (st : LifeSt) : LifeEv → LifeSt
  | LifeEv.attach c =>
      let st1 :=
        { st with
          wsEntry := true,
          subs := if c ∈ st.subs then st.subs else st.subs ++ [c] }
      if st1.bcastReg then st1
      else { st1 with bcastReg := true, bcastAlive := true }
  | LifeEv.handlerDisconnect c =>
      if st.wsEntry then
        let subs1 := st.subs.filter (fun x => x ≠ c)
        if subs1.isEmpty then
          { subs := [], wsEntry := false, bcastReg := false, bcastAlive := false }
        else { st with subs := subs1 }
      else st
  | LifeEv.bcastDropFailed c =>
      if st.bcastAlive = true ∧ st.wsEntry = true then
        let subs1 := st.subs.filter (fun x => x ≠ c)
        if subs1.isEmpty then
          { st with subs := [], wsEntry := false, bcastAlive := false }
        else { st with subs := subs1 }
      else st
  | LifeEv.bcastServerDead =>
      if st.bcastAlive then
        { subs := [], wsEntry := false, bcastReg := false, bcastAlive := false }
      else st

def runLife (evs : List LifeEv) : LifeSt := List.foldl lifeStep initLife evs

/-- Trace on which the broadcaster registration outlives its last
subscriber: one client attaches, its delivery fails so the broadcaster
removes it (deleting the subscriber dict entry and stopping its own loop
without deregistering itself), and the client handler finally-block then
finds no subscriber dict entry and skips all cleanup. -/
def staleSched : List LifeEv :=
  [LifeEv.attach 1, LifeEv.bcastDropFailed 1, LifeEv.handlerDisconnect 1]

/-- C4 failing run: after the last subscriber is removed as disconnected the
broadcaster task entry is still registered (with its loop dead), so the
broadcaster outlives its last subscriber; a subsequent attach then finds the
stale entry and starts no live broadcaster for the new subscriber. -/
theorem broadcaster_outlives_last_subscriber :
    (runLife staleSched).subs = [] ∧
    (runLife staleSched).bcastReg = true ∧
    (runLife staleSched).bcastAlive = false ∧
    (lifeStep (runLife staleSched) (LifeEv.attach 2)).subs = [2] ∧
    (lifeStep (runLife staleSched) (LifeEv.attach 2)).bcastAlive = false := by
  refine ⟨rfl, rfl, rfl, rfl, rfl⟩

end Stellara
